import Mathlib

/-
Verification of the AgenticChatbot repository: a MongoDB-backed MCP tool
server (mcp_server.py) and two language-model agent clients (mcp_client.py,
mcp_client2.py).  The development shallowly embeds the relevant parts of the
Python code:

- the tool function query_db_aggregate (mcp_server.py, lines 172-193) becomes
  a pure Lean function parameterised over the external collaborators it calls,
  namely the standard-library ISO-8601 parser datetime.fromisoformat
  (a parameter parse, of type String to Except String Int, where the error
  string models str(e) of the raised exception) and the database aggregation
  (a parameter aggregate, of type List Stage to List D).  The output records
  both the returned value and the list of pipelines actually sent to the
  database, so that statements about what was executed are expressible.
- timestamps are modelled as Int (only their ordering and identity matter to
  the claims), and pipeline stages as a small inductive: the date $match
  stage the tool builds, plus an opaque constructor for arbitrary
  caller-supplied stage objects.
- the lifespan context manager, the AgentExecutor configuration and the
  outermost try/except of the structured-chat client are embedded further
  below, each next to the claims about them.
-/

/- A MongoDB aggregation pipeline stage, as handled by query_db_aggregate.
The tool treats caller-supplied stages as opaque dict objects (constructor
Stage.other, identified by an opaque tag); the only stage the tool itself
builds is the dict
  d$match: d date: d $gte: start_dt, $lt: end_dt
(braces elided), modelled by Stage.dateMatchGteLt. -/
inductive Stage where
  | dateMatchGteLt (start_dt end_dt : Int)
  | other (tag : String)
  deriving DecidableEq, Repr

/- The value returned by the tool: a list of result documents, or a plain
string (Python returns either type from the same function). -/
inductive ToolResult (D : Type) where
  | docs (l : List D)
  | msg (s : String)
  deriving DecidableEq, Repr

/- Output of one call of the embedded tool: the returned value plus the
pipelines passed to transactions.aggregate, in order (the real code performs
at most one such call; an empty list means the database was never touched). -/
structure ToolOutput (D : Type) where
  result : ToolResult D
  dbCalls : List (List Stage)
  deriving DecidableEq, Repr

/- The single-quote character, used to spell out the literal strings of the
source without embedding quote characters in string literals. -/
def sglQuote : String := String.singleton (Char.ofNat 39)

/- The sentinel returned on an empty aggregation result
(mcp_server.py line 193). -/
def noResultsMsg : String := "No results found for the aggregation."

/- The error string returned when date parsing raises (mcp_server.py
line 188): the f-string
  Invalid date format. Use ISO format (e.g., [q]2025-04-19T00:00:00[q]). Error: de
with [q] a single quote and de the formatted str(e) of the exception. -/
def invalidDateMsg (e : String) : String :=
  "Invalid date format. Use ISO format (e.g., " ++ sglQuote ++ "2025-04-19T00:00:00"
    ++ sglQuote ++ "). Error: " ++ e

/- Python truthiness of an optional string argument, as tested by
the line if start and end: a missing (None) argument and the empty
string are falsy, every other string is truthy. -/
def truthyStr : Option String → Bool
  | none => false
  | some s => if s = "" then false else true

/- The tail of the tool body once final_pipeline is fully built
(mcp_server.py lines 191-193): run the aggregation, materialise the results,
and return the list when non-empty, the sentinel string otherwise. -/
def execAgg {D : Type} (aggregate : List Stage → List D) (fp : List Stage) :
    ToolOutput D :=
  let result := aggregate fp
  { result := if result.isEmpty then ToolResult.msg noResultsMsg
              else ToolResult.docs result
    dbCalls := [fp] }

/- Embedding of query_db_aggregate (mcp_server.py lines 172-193).
final_pipeline starts empty; if start and end are truthy, both are parsed
(start first, as in the source, so a start failure masks an end failure) and
the date $match stage is appended, any parse exception being converted into
the invalid-date message with no database access; then final_pipeline is
extended with the stages of the caller and executed. -/
def query_db_aggregate {D : Type} (parse : String → Except String Int)
    (aggregate : List Stage → List D) (pipeline : List Stage)
    (start end_ : Option String) : ToolOutput D :=
  if truthyStr start && truthyStr end_ then
    match parse (start.getD "") with
    | Except.error e => { result := ToolResult.msg (invalidDateMsg e), dbCalls := [] }
    | Except.ok start_dt =>
      match parse (end_.getD "") with
      | Except.error e => { result := ToolResult.msg (invalidDateMsg e), dbCalls := [] }
      | Except.ok end_dt =>
        execAgg aggregate (Stage.dateMatchGteLt start_dt end_dt :: pipeline)
  else
    execAgg aggregate pipeline

/- Model of the external standard-library parser datetime.fromisoformat
(not part of this repository), restricted to the concrete date strings
exercised by the witnesses and counterexamples of this development: the two
ISO strings used in the spec examples parse, encoded as the integer
YYYYMMDDhhmmss (which preserves chronological order), and every other string
raises ValueError whose str() is
  Invalid isoformat string: [q]input[q]
as CPython formats it.  The empty string is not a valid ISO-8601 string. -/
def fromisoformatM : String → Except String Int := fun s =>
  if s = "2025-04-19T00:00:00" then Except.ok 20250419000000
  else if s = "2025-04-20T00:00:00" then Except.ok 20250420000000
  else Except.error ("Invalid isoformat string: " ++ sglQuote ++ s ++ sglQuote)

/- Heap model of Python list objects, used for the frame claim about the
caller-supplied pipeline list: a heap is a sequence of list cells and a
reference is an index into it.  The operations below are the CPython
semantics of the list operations appearing in the tool body: allocating a
fresh list literal, list.append of one element, and list.extend, which
reads the source cell and writes only the destination cell. -/
abbrev PyHeap := List (List Stage)

def heapGet (h : PyHeap) (r : Nat) : List Stage := h.getD r []

def heapSet (h : PyHeap) (r : Nat) (l : List Stage) : PyHeap := h.set r l

def heapAlloc (h : PyHeap) (l : List Stage) : Nat × PyHeap := (h.length, h ++ [l])

def listAppendOp (h : PyHeap) (r : Nat) (x : Stage) : PyHeap :=
  heapSet h r (heapGet h r ++ [x])

def listExtendOp (h : PyHeap) (dst src : Nat) : PyHeap :=
  heapSet h dst (heapGet h dst ++ heapGet h src)

/- Heap-level embedding of the list manipulation in query_db_aggregate
(mcp_server.py lines 173-190): final_pipeline = [] allocates a fresh cell;
if the date branch is taken, the date $match stage is appended to it; then
final_pipeline.extend(pipeline) copies the stages of the caller into the
fresh cell.  Returns the reference of final_pipeline and the final heap. -/
def buildFinalPipeline (h : PyHeap) (pipelineRef : Nat) (dateStage : Option Stage) :
    Nat × PyHeap :=
  let alloc := heapAlloc h []
  let fref := alloc.1
  let h1 := alloc.2
  let h2 := match dateStage with
    | some st => listAppendOp h1 fref st
    | none => h1
  (fref, listExtendOp h2 fref pipelineRef)

/- Events observable in the server lifespan (mcp_server.py lines 27-41):
opening the MongoDB connection (the MongoImplement construction), closing
it (db.client.close() in the finally block), and the opaque events of the
server body that runs between yield and shutdown. -/
inductive LifeEvent where
  | openConn
  | closeConn
  | bodyEv (tag : Nat)
  deriving DecidableEq, Repr

/- Outcome of a Python block: a normal value, or a raised exception carrying
str(e). -/
inductive PyResult (A : Type) where
  | ok (a : A)
  | exn (e : String)
  deriving DecidableEq, Repr

/- Semantics of the try/finally statement over traced computations: the body
runs first, producing its event trace and its outcome; the finalizer trace
is then emitted whatever that outcome was — normal completion or a raised
exception — and the outcome of the body is propagated unchanged. -/
def tryFinallyTrace {A : Type} (body : List LifeEvent × PyResult A)
    (finalizer : List LifeEvent) : List LifeEvent × PyResult A :=
  (body.1 ++ finalizer, body.2)

/- Embedding of app_lifespan (mcp_server.py lines 27-41): the connection is
opened first (event openConn, before any of the server body runs), the try
block yields to the server body, and the finally block closes the
connection (event closeConn).  The asynccontextmanager protocol runs the
finally block on every exit path of the generator — normal close and an
exception thrown into the yield alike — which tryFinallyTrace captures. -/
def app_lifespan {A : Type} (body : List LifeEvent × PyResult A) :
    List LifeEvent × PyResult A :=
  let startup := [LifeEvent.openConn]
  let run := tryFinallyTrace body [LifeEvent.closeConn]
  (startup ++ run.1, run.2)

/- One decision of the language-model agent inside the executor loop:
finish with a final answer, or call a tool with some action. -/
inductive AgentDecision (A : Type) where
  | finish (answer : String)
  | act (a : A)

/- Result of one AgentExecutor invocation: the final output text, the number
of tool-call iterations performed, and whether the run was stopped by the
iteration ceiling rather than by a finish decision of the model. -/
structure AgentRunResult where
  output : String
  toolCallCount : Nat
  hitLimit : Bool
  deriving DecidableEq, Repr

/- The iteration ceiling configured by the structured-chat client:
the AgentExecutor construction in mcp_client.py line 84 passes
max_iterations=5. -/
def max_iterations : Nat := 5

/-- Modelled from the spec: the plan-act-observe loop of the agent-framework
AgentExecutor, whose code is a third-party library and not under src/ — the
spec describes it as strictly sequential, bounded by the configured maximum
number of iterations, with the ceiling surfacing as a bounded-failure
result rather than an infinite loop.  Each iteration asks the policy (the
language model) for a decision given the scratchpad of prior
action/observation pairs; an act decision runs the tool and appends the
pair; exhausting the iteration budget returns the stopped bounded-failure
result. -/
def runExecutorLoop {A B : Type} (policy : List (A × B) → AgentDecision A)
    (runTool : A → B) : Nat → List (A × B) → AgentRunResult
  | 0, scratchpad =>
    { output := "Agent stopped due to iteration limit."
      toolCallCount := scratchpad.length
      hitLimit := true }
  | Nat.succ fuel, scratchpad =>
    match policy scratchpad with
    | AgentDecision.finish answer =>
      { output := answer, toolCallCount := scratchpad.length, hitLimit := false }
    | AgentDecision.act a =>
      runExecutorLoop policy runTool fuel (scratchpad ++ [(a, runTool a)])

/- One invocation of the executor as configured by the structured-chat
client: the loop starts from an empty scratchpad with the configured
iteration budget. -/
def agent_executor_invoke {A B : Type} (policy : List (A × B) → AgentDecision A)
    (runTool : A → B) : AgentRunResult :=
  runExecutorLoop policy runTool max_iterations []

/- The value returned by main in mcp_client.py: the agent response on
success, or the error dict built in the except block from str(e). -/
inductive MainReturn (R : Type) where
  | response (r : R)
  | errorObj (msg : String)
  deriving DecidableEq, Repr

/- One run of the outermost client call: what main returns — wrapped in
PyResult, where ok means main returned normally rather than re-raising —
and the console lines printed, in order. -/
structure ClientRun (R : Type) where
  returned : PyResult (MainReturn R)
  printed : List String
  deriving DecidableEq, Repr

/- The hard-coded query of mcp_client.py line 89. -/
def clientQuery : String :=
  "give count of documents in transactions collection in mongo db on date 2025-04-19"

/- Embedding of the try/except block at the bottom of main (mcp_client.py
lines 88-102), parameterised over the outcome of agent_executor.ainvoke
(ok with the final response, or a raised exception carrying str(e)) and
over the printable rendering of a response.  The try block prints the query
banner, invokes the agent, prints the final response and returns it; the
except Exception block prints the failure message and the traceback, and
returns the error dict normally — it never re-raises.  The emoji and
blank-line decorations of the printed banners are elided. -/
def clientMain {R : Type} (invoke : PyResult R) (render : R → String) :
    ClientRun R :=
  match invoke with
  | PyResult.ok r =>
    { returned := PyResult.ok (MainReturn.response r)
      printed := ["QUERY: " ++ clientQuery, "FINAL RESPONSE: " ++ render r] }
  | PyResult.exn e =>
    { returned := PyResult.ok (MainReturn.errorObj e)
      printed := ["QUERY: " ++ clientQuery, "Error executing agent: " ++ e,
                  "Traceback (most recent call last):"] }

example : (query_db_aggregate fromisoformatM (fun _ => ([7] : List Nat))
    [Stage.other "g"] (some "2025-04-19T00:00:00")
    (some "2025-04-20T00:00:00")).dbCalls
    = [[Stage.dateMatchGteLt 20250419000000 20250420000000, Stage.other "g"]] := rfl

/- Basic characterisations of the branches of query_db_aggregate. -/

lemma ne_empty_of_truthy (s : String) (h : truthyStr (some s) = true) : s ≠ "" := by
  intro hs
  subst hs
  simp [truthyStr] at h

lemma query_db_aggregate_not_truthy {D : Type} (parse : String → Except String Int)
    (aggregate : List Stage → List D) (pipeline : List Stage)
    (start end_ : Option String)
    (h : (truthyStr start && truthyStr end_) = false) :
    query_db_aggregate parse aggregate pipeline start end_
      = execAgg aggregate pipeline := by
  simp [query_db_aggregate, h]

lemma query_db_aggregate_truthy_ok {D : Type} (parse : String → Except String Int)
    (aggregate : List Stage → List D) (pipeline : List Stage)
    (s e : String) (sdt edt : Int) (hs : s ≠ "") (he : e ≠ "")
    (hps : parse s = Except.ok sdt) (hpe : parse e = Except.ok edt) :
    query_db_aggregate parse aggregate pipeline (some s) (some e)
      = execAgg aggregate (Stage.dateMatchGteLt sdt edt :: pipeline) := by
  simp [query_db_aggregate, truthyStr, hs, he, hps, hpe]

lemma query_db_aggregate_err {D : Type} (parse : String → Except String Int)
    (aggregate : List Stage → List D) (pipeline : List Stage)
    (s e msg : String) (hs : s ≠ "") (he : e ≠ "")
    (h : parse s = Except.error msg
         ∨ (∃ sdt, parse s = Except.ok sdt ∧ parse e = Except.error msg)) :
    query_db_aggregate parse aggregate pipeline (some s) (some e)
      = { result := ToolResult.msg (invalidDateMsg msg), dbCalls := [] } := by
  rcases h with h1 | ⟨sdt, h1, h2⟩
  · simp [query_db_aggregate, truthyStr, hs, he, h1]
  · simp [query_db_aggregate, truthyStr, hs, he, h1, h2]

lemma execAgg_result_empty {D : Type} (aggregate : List Stage → List D)
    (fp : List Stage) (h : aggregate fp = []) :
    (execAgg aggregate fp).result = ToolResult.msg noResultsMsg := by
  simp [execAgg, h]

lemma execAgg_result_nonempty {D : Type} (aggregate : List Stage → List D)
    (fp : List Stage) (h : aggregate fp ≠ []) :
    (execAgg aggregate fp).result = ToolResult.docs (aggregate fp) := by
  cases hag : aggregate fp with
  | nil => exact absurd hag h
  | cons a t => simp [execAgg, hag]

/- Every run of the tool either executes exactly one pipeline through
execAgg, or returns an invalid-date message having touched no pipeline. -/
lemma query_db_aggregate_shape {D : Type} (parse : String → Except String Int)
    (aggregate : List Stage → List D) (pipeline : List Stage)
    (start end_ : Option String) :
    (∃ fp, query_db_aggregate parse aggregate pipeline start end_
      = execAgg aggregate fp)
    ∨ (∃ msg, query_db_aggregate parse aggregate pipeline start end_
      = { result := ToolResult.msg (invalidDateMsg msg), dbCalls := [] }) := by
  unfold query_db_aggregate
  split
  · cases hps : parse (start.getD "") with
    | error e1 => exact Or.inr ⟨e1, rfl⟩
    | ok sdt =>
      cases hpe : parse (end_.getD "") with
      | error e2 => exact Or.inr ⟨e2, rfl⟩
      | ok edt => exact Or.inl ⟨_, rfl⟩
  · exact Or.inl ⟨pipeline, rfl⟩

/- If a pipeline fp was sent to the database, the whole call behaved as
execAgg on fp. -/
lemma query_dbCalls_eq {D : Type} (parse : String → Except String Int)
    (aggregate : List Stage → List D) (pipeline : List Stage)
    (start end_ : Option String) (fp : List Stage)
    (h : (query_db_aggregate parse aggregate pipeline start end_).dbCalls = [fp]) :
    query_db_aggregate parse aggregate pipeline start end_ = execAgg aggregate fp := by
  rcases query_db_aggregate_shape parse aggregate pipeline start end_ with
    ⟨fp0, h0⟩ | ⟨msg, h0⟩
  · rw [h0] at h
    simp [execAgg] at h
    rw [h0, h]
  · rw [h0] at h
    simp at h

lemma getD_set_ne {α : Type} (l : List α) (d : α) (i j : Nat) (x : α)
    (hij : i ≠ j) : (l.set i x).getD j d = l.getD j d := by
  induction l generalizing i j with
  | nil => simp
  | cons a t ih =>
    cases i with
    | zero =>
      cases j with
      | zero => exact absurd rfl hij
      | succ j2 => simp
    | succ i2 =>
      cases j with
      | zero => simp
      | succ j2 => simpa using ih i2 j2 (fun hh => hij (by rw [hh]))

lemma getD_set_self {α : Type} (l : List α) (d : α) (i : Nat) (x : α)
    (hi : i < l.length) : (l.set i x).getD i d = x := by
  induction l generalizing i with
  | nil => simp at hi
  | cons a t ih =>
    cases i with
    | zero => simp
    | succ i2 => simpa using ih i2 (by simpa using hi)

lemma getD_append_length {α : Type} (l : List α) (x d : α) :
    (l ++ [x]).getD l.length d = x := by
  rw [List.getD_append_right l [x] d l.length (Nat.le_refl _)]
  simp

lemma runExecutorLoop_count_le {A B : Type}
    (policy : List (A × B) → AgentDecision A) (runTool : A → B)
    (fuel : Nat) (scratchpad : List (A × B)) :
    (runExecutorLoop policy runTool fuel scratchpad).toolCallCount
      ≤ scratchpad.length + fuel := by
  induction fuel generalizing scratchpad with
  | zero => simp [runExecutorLoop]
  | succ n ih =>
    cases hd : policy scratchpad with
    | finish answer =>
      simp [runExecutorLoop, hd]
    | act a =>
      have hrec := ih (scratchpad ++ [(a, runTool a)])
      simp only [runExecutorLoop, hd] at hrec ⊢
      simp at hrec
      omega

lemma runExecutorLoop_always_act {A B : Type}
    (policy : List (A × B) → AgentDecision A) (runTool : A → B)
    (h : ∀ sp, ∃ a, policy sp = AgentDecision.act a)
    (fuel : Nat) (scratchpad : List (A × B)) :
    (runExecutorLoop policy runTool fuel scratchpad).hitLimit = true
    ∧ (runExecutorLoop policy runTool fuel scratchpad).output
      = "Agent stopped due to iteration limit." := by
  induction fuel generalizing scratchpad with
  | zero => exact ⟨rfl, rfl⟩
  | succ n ih =>
    obtain ⟨a, ha⟩ := h scratchpad
    simp only [runExecutorLoop, ha]
    exact ih (scratchpad ++ [(a, runTool a)])

/-- Claim C1: for every call of the mongodb_aggregate_query tool where both
start and end are supplied and parse as ISO-8601 (hence are nonempty
strings) with start before end, the pipeline actually executed equals a
$match stage on the date field with $gte start and $lt end (the half-open
interval) prepended to the caller-supplied stages, all of which follow in
their original order. -/
theorem C1_date_match_prepended {D : Type} (parse : String → Except String Int)
    (aggregate : List Stage → List D) (pipeline : List Stage)
    (s e : String) (sdt edt : Int) (hs : s ≠ "") (he : e ≠ "")
    (hps : parse s = Except.ok sdt) (hpe : parse e = Except.ok edt)
    (hlt : sdt < edt) :
    (query_db_aggregate parse aggregate pipeline (some s) (some e)).dbCalls
      = [Stage.dateMatchGteLt sdt edt :: pipeline] := by
  rw [query_db_aggregate_truthy_ok parse aggregate pipeline s e sdt edt hs he hps hpe]
  rfl

/-- Witness for C1 at the concrete dates of the spec example. -/
theorem C1_witness :
    ("2025-04-19T00:00:00" : String) ≠ ""
    ∧ ("2025-04-20T00:00:00" : String) ≠ ""
    ∧ fromisoformatM "2025-04-19T00:00:00" = Except.ok 20250419000000
    ∧ fromisoformatM "2025-04-20T00:00:00" = Except.ok 20250420000000
    ∧ (20250419000000 : Int) < 20250420000000
    ∧ (query_db_aggregate fromisoformatM (fun _ => ([7] : List Nat))
        [Stage.other "match-user", Stage.other "group-category"]
        (some "2025-04-19T00:00:00") (some "2025-04-20T00:00:00")).dbCalls
      = [Stage.dateMatchGteLt 20250419000000 20250420000000
          :: [Stage.other "match-user", Stage.other "group-category"]] :=
  ⟨by decide, by decide, rfl, rfl, by decide,
    C1_date_match_prepended fromisoformatM (fun _ => ([7] : List Nat))
      [Stage.other "match-user", Stage.other "group-category"]
      "2025-04-19T00:00:00" "2025-04-20T00:00:00" 20250419000000 20250420000000
      (by decide) (by decide) rfl rfl (by decide)⟩

/-- Claim C2 counterexample: with start = "garbage" (supplied but not
ISO-8601) and a valid end, the caller pipeline is NOT executed unmodified:
no aggregation runs at all (dbCalls is empty, in particular not equal to
the caller pipeline alone) and the invalid-date error string is returned
instead. -/
theorem C2_counterexample :
    (query_db_aggregate fromisoformatM (fun _ => ([7] : List Nat))
        [Stage.other "g"] (some "garbage") (some "2025-04-19T00:00:00")).dbCalls
      ≠ [[Stage.other "g"]]
    ∧ (query_db_aggregate fromisoformatM (fun _ => ([7] : List Nat))
        [Stage.other "g"] (some "garbage") (some "2025-04-19T00:00:00")).dbCalls
      = []
    ∧ (query_db_aggregate fromisoformatM (fun _ => ([7] : List Nat))
        [Stage.other "g"] (some "garbage") (some "2025-04-19T00:00:00")).result
      = ToolResult.msg (invalidDateMsg
          ("Invalid isoformat string: " ++ sglQuote ++ "garbage" ++ sglQuote)) := by
  refine ⟨?_, rfl, rfl⟩
  have h0 : (query_db_aggregate fromisoformatM (fun _ => ([7] : List Nat))
      [Stage.other "g"] (some "garbage") (some "2025-04-19T00:00:00")).dbCalls
      = [] := rfl
  rw [h0]
  simp

/-- Claim C2 amended: when start or end is missing or falsy the caller
pipeline is executed unmodified with no implicit date filter; when both are
truthy (supplied and nonempty) but at least one fails to parse as ISO-8601,
no pipeline is executed at all and the invalid-date error string is
returned — so in no case is an implicit date filter added. -/
theorem C2_missing_or_unparseable {D : Type} (parse : String → Except String Int)
    (aggregate : List Stage → List D) (pipeline : List Stage)
    (start end_ : Option String) :
    ((truthyStr start && truthyStr end_) = false →
      (query_db_aggregate parse aggregate pipeline start end_).dbCalls = [pipeline])
    ∧ (∀ s e msg, start = some s → end_ = some e →
        (parse s = Except.error msg
          ∨ (∃ sdt, parse s = Except.ok sdt ∧ parse e = Except.error msg)) →
        (truthyStr start && truthyStr end_) = true →
        (query_db_aggregate parse aggregate pipeline start end_).dbCalls = []
        ∧ (query_db_aggregate parse aggregate pipeline start end_).result
          = ToolResult.msg (invalidDateMsg msg)) := by
  constructor
  · intro h
    rw [query_db_aggregate_not_truthy parse aggregate pipeline start end_ h]
    rfl
  · intro s e msg hstart hend hparse htr
    subst hstart
    subst hend
    rcases Bool.and_eq_true_iff.mp htr with ⟨hts, hte⟩
    have hs := ne_empty_of_truthy s hts
    have he := ne_empty_of_truthy e hte
    rw [query_db_aggregate_err parse aggregate pipeline s e msg hs he hparse]
    exact ⟨rfl, rfl⟩

/-- Witness for the amended C2, exercising both conjuncts: a missing start
runs the caller pipeline unmodified, and an unparseable start with a valid
end executes nothing. -/
theorem C2_witness :
    (query_db_aggregate fromisoformatM (fun _ => ([7] : List Nat))
        [Stage.other "g"] none (some "2025-04-19T00:00:00")).dbCalls
      = [[Stage.other "g"]]
    ∧ (query_db_aggregate fromisoformatM (fun _ => ([7] : List Nat))
        [Stage.other "g"] (some "garbage2") (some "2025-04-19T00:00:00")).dbCalls
      = [] :=
  ⟨(C2_missing_or_unparseable fromisoformatM (fun _ => ([7] : List Nat))
      [Stage.other "g"] none (some "2025-04-19T00:00:00")).1 (by decide),
   ((C2_missing_or_unparseable fromisoformatM (fun _ => ([7] : List Nat))
      [Stage.other "g"] (some "garbage2") (some "2025-04-19T00:00:00")).2
      "garbage2" "2025-04-19T00:00:00"
      ("Invalid isoformat string: " ++ sglQuote ++ "garbage2" ++ sglQuote)
      rfl rfl (Or.inl rfl) (by decide)).1⟩

/-- Claim C3 counterexample: the empty string is supplied as start and is
not a valid ISO-8601 string (the modelled parser rejects it, as
datetime.fromisoformat does), yet the tool does not return a descriptive
error string: the falsy check skips the date branch entirely and the call
returns the document list of the executed aggregation. -/
theorem C3_counterexample :
    fromisoformatM ""
      = Except.error ("Invalid isoformat string: " ++ sglQuote ++ sglQuote)
    ∧ (query_db_aggregate fromisoformatM (fun _ => ([5] : List Nat))
        [Stage.other "g"] (some "") (some "2025-04-19T00:00:00")).result
      = ToolResult.docs [5] := by
  constructor
  · have h : ("" : String) ≠ "2025-04-19T00:00:00" := by decide
    simp [fromisoformatM]
  · rfl

/-- Claim C3 amended: when both start and end are supplied, truthy (hence
nonempty), and at least one of them fails to parse as ISO-8601, the tool
raises no exception (the embedding is a total function) and returns the
error string built from the parse failure; that string is literally the
fixed text naming the expected ISO format followed by str(e) of the parse
error, so it contains the description of the offending input produced by
the parser. -/
theorem C3_invalid_date_error {D : Type} (parse : String → Except String Int)
    (aggregate : List Stage → List D) (pipeline : List Stage)
    (s e msg : String) (hs : s ≠ "") (he : e ≠ "")
    (h : parse s = Except.error msg
         ∨ (∃ sdt, parse s = Except.ok sdt ∧ parse e = Except.error msg)) :
    (query_db_aggregate parse aggregate pipeline (some s) (some e)).result
      = ToolResult.msg (invalidDateMsg msg)
    ∧ invalidDateMsg msg
      = ("Invalid date format. Use ISO format (e.g., " ++ sglQuote
          ++ "2025-04-19T00:00:00" ++ sglQuote ++ "). Error: ") ++ msg := by
  refine ⟨?_, rfl⟩
  rw [query_db_aggregate_err parse aggregate pipeline s e msg hs he h]

/-- Witness for the amended C3: an unparseable start with a valid end
returns the invalid-date message carrying the parse error text. -/
theorem C3_witness :
    ("garbage" : String) ≠ ""
    ∧ ("2025-04-19T00:00:00" : String) ≠ ""
    ∧ fromisoformatM "garbage"
      = Except.error ("Invalid isoformat string: " ++ sglQuote ++ "garbage" ++ sglQuote)
    ∧ (query_db_aggregate fromisoformatM (fun _ => ([5] : List Nat))
        [Stage.other "g"] (some "garbage") (some "2025-04-19T00:00:00")).result
      = ToolResult.msg (invalidDateMsg
          ("Invalid isoformat string: " ++ sglQuote ++ "garbage" ++ sglQuote)) :=
  ⟨by decide, by decide, rfl,
    (C3_invalid_date_error fromisoformatM (fun _ => ([5] : List Nat))
      [Stage.other "g"] "garbage" "2025-04-19T00:00:00"
      ("Invalid isoformat string: " ++ sglQuote ++ "garbage" ++ sglQuote)
      (by decide) (by decide) (Or.inl rfl)).1⟩

/-- Claim C4: whenever the tool actually executed an aggregation (some
pipeline fp was sent to the database), a zero-document result yields the
human-readable no-results sentinel string — never an empty list and never
an error — and a non-empty result yields exactly the list of result
documents. -/
theorem C4_empty_sentinel_nonempty_docs {D : Type}
    (parse : String → Except String Int) (aggregate : List Stage → List D)
    (pipeline : List Stage) (start end_ : Option String) (fp : List Stage)
    (hexec : (query_db_aggregate parse aggregate pipeline start end_).dbCalls = [fp]) :
    (aggregate fp = [] →
      (query_db_aggregate parse aggregate pipeline start end_).result
        = ToolResult.msg noResultsMsg)
    ∧ (aggregate fp ≠ [] →
      (query_db_aggregate parse aggregate pipeline start end_).result
        = ToolResult.docs (aggregate fp)) := by
  have hq := query_dbCalls_eq parse aggregate pipeline start end_ fp hexec
  rw [hq]
  exact ⟨execAgg_result_empty aggregate fp, execAgg_result_nonempty aggregate fp⟩

/-- Witness for C4, both directions: an aggregation matching zero documents
returns the sentinel, one matching a document returns the list. -/
theorem C4_witness :
    (query_db_aggregate fromisoformatM (fun _ => ([] : List Nat))
        [Stage.other "g"] none none).dbCalls = [[Stage.other "g"]]
    ∧ (query_db_aggregate fromisoformatM (fun _ => ([] : List Nat))
        [Stage.other "g"] none none).result = ToolResult.msg noResultsMsg
    ∧ (query_db_aggregate fromisoformatM (fun _ => ([9] : List Nat))
        [Stage.other "g"] none none).result = ToolResult.docs [9] :=
  ⟨rfl,
   (C4_empty_sentinel_nonempty_docs fromisoformatM (fun _ => ([] : List Nat))
      [Stage.other "g"] none none [Stage.other "g"] rfl).1 rfl,
   (C4_empty_sentinel_nonempty_docs fromisoformatM (fun _ => ([9] : List Nat))
      [Stage.other "g"] none none [Stage.other "g"] rfl).2 (by simp)⟩

/-- Claim C8: when exactly one of start and end is supplied, or when either
supplied value is the empty (falsy) string, the date branch is skipped
entirely: the call is exactly execAgg on the unmodified caller pipeline
(so no $match stage is prepended and no error string is produced) and the
executed pipeline is the caller pipeline itself. -/
theorem C8_partial_range_ignored {D : Type} (parse : String → Except String Int)
    (aggregate : List Stage → List D) (pipeline : List Stage)
    (start end_ : Option String)
    (h : (start = none ∧ end_ ≠ none) ∨ (start ≠ none ∧ end_ = none)
         ∨ start = some "" ∨ end_ = some "") :
    query_db_aggregate parse aggregate pipeline start end_
      = execAgg aggregate pipeline
    ∧ (query_db_aggregate parse aggregate pipeline start end_).dbCalls
      = [pipeline] := by
  have hf : (truthyStr start && truthyStr end_) = false := by
    rcases h with ⟨h1, _⟩ | ⟨_, h1⟩ | h1 | h1 <;> subst h1 <;> simp [truthyStr]
  have hq := query_db_aggregate_not_truthy parse aggregate pipeline start end_ hf
  rw [hq]
  exact ⟨rfl, rfl⟩

/-- Witness for C8: a supplied empty start next to a valid end is silently
ignored and the caller pipeline runs unmodified. -/
theorem C8_witness :
    (query_db_aggregate fromisoformatM (fun _ => ([3] : List Nat))
        [Stage.other "p"] (some "") (some "2025-04-19T00:00:00")).dbCalls
      = [[Stage.other "p"]]
    ∧ (query_db_aggregate fromisoformatM (fun _ => ([3] : List Nat))
        [Stage.other "p"] (some "2025-04-19T00:00:00") none).dbCalls
      = [[Stage.other "p"]] :=
  ⟨(C8_partial_range_ignored fromisoformatM (fun _ => ([3] : List Nat))
      [Stage.other "p"] (some "") (some "2025-04-19T00:00:00")
      (Or.inr (Or.inr (Or.inl rfl)))).2,
   (C8_partial_range_ignored fromisoformatM (fun _ => ([3] : List Nat))
      [Stage.other "p"] (some "2025-04-19T00:00:00") none
      (Or.inr (Or.inl ⟨by decide, rfl⟩))).2⟩

/-- Claim C9: when date parsing fails (both values truthy, at least one
unparseable), the error string is produced before any database access: the
list of executed aggregations is empty, and the whole outcome of the call
is independent of the aggregation function — the database is never
consulted, so the state it would expose is trivially unchanged. -/
theorem C9_error_path_no_db_access {D : Type} (parse : String → Except String Int)
    (aggregate : List Stage → List D) (pipeline : List Stage)
    (s e msg : String) (hs : s ≠ "") (he : e ≠ "")
    (h : parse s = Except.error msg
         ∨ (∃ sdt, parse s = Except.ok sdt ∧ parse e = Except.error msg)) :
    (query_db_aggregate parse aggregate pipeline (some s) (some e)).dbCalls = []
    ∧ ∀ aggregate2 : List Stage → List D,
        query_db_aggregate parse aggregate2 pipeline (some s) (some e)
          = query_db_aggregate parse aggregate pipeline (some s) (some e) := by
  constructor
  · rw [query_db_aggregate_err parse aggregate pipeline s e msg hs he h]
  · intro aggregate2
    rw [query_db_aggregate_err parse aggregate pipeline s e msg hs he h,
        query_db_aggregate_err parse aggregate2 pipeline s e msg hs he h]

/-- Witness for C9: with an unparseable end date, nothing reaches the
database and the outcome ignores the aggregation function. -/
theorem C9_witness :
    (query_db_aggregate fromisoformatM (fun _ => ([8] : List Nat))
        [Stage.other "q"] (some "2025-04-19T00:00:00") (some "nonsense")).dbCalls
      = []
    ∧ query_db_aggregate fromisoformatM (fun _ => ([42] : List Nat))
        [Stage.other "q"] (some "2025-04-19T00:00:00") (some "nonsense")
      = query_db_aggregate fromisoformatM (fun _ => ([8] : List Nat))
        [Stage.other "q"] (some "2025-04-19T00:00:00") (some "nonsense") :=
  ⟨(C9_error_path_no_db_access fromisoformatM (fun _ => ([8] : List Nat))
      [Stage.other "q"] "2025-04-19T00:00:00" "nonsense"
      ("Invalid isoformat string: " ++ sglQuote ++ "nonsense" ++ sglQuote)
      (by decide) (by decide)
      (Or.inr ⟨20250419000000, rfl, rfl⟩)).1,
   (C9_error_path_no_db_access fromisoformatM (fun _ => ([8] : List Nat))
      [Stage.other "q"] "2025-04-19T00:00:00" "nonsense"
      ("Invalid isoformat string: " ++ sglQuote ++ "nonsense" ++ sglQuote)
      (by decide) (by decide)
      (Or.inr ⟨20250419000000, rfl, rfl⟩)).2 (fun _ => ([42] : List Nat))⟩

/-- Claim C10: the caller-supplied pipeline list is never mutated.  In the
heap model of the list operations of the tool body, building final_pipeline
(fresh allocation, optional append of the date stage, extend with the
stages of the caller) leaves the cell of the caller pipeline identical to
what it was before the call, while the fresh final_pipeline cell holds the
optional date stage followed by the caller stages. -/
theorem C10_caller_pipeline_unchanged (h : PyHeap) (pRef : Nat)
    (ds : Option Stage) (hp : pRef < h.length) :
    heapGet (buildFinalPipeline h pRef ds).2 pRef = heapGet h pRef
    ∧ heapGet (buildFinalPipeline h pRef ds).2 (buildFinalPipeline h pRef ds).1
      = ds.toList ++ heapGet h pRef := by
  have hne : h.length ≠ pRef := Nat.ne_of_gt hp
  have hget1 : heapGet (h ++ [[]]) pRef = heapGet h pRef :=
    List.getD_append h [[]] [] pRef hp
  have hgetf : heapGet (h ++ [[]]) h.length = [] := getD_append_length h [] []
  cases ds with
  | none =>
    constructor
    · show heapGet (listExtendOp (h ++ [[]]) h.length pRef) pRef = heapGet h pRef
      unfold listExtendOp heapSet heapGet at *
      rw [getD_set_ne _ _ _ _ _ hne]
      exact hget1
    · show heapGet (listExtendOp (h ++ [[]]) h.length pRef) h.length
        = Option.toList none ++ heapGet h pRef
      unfold listExtendOp heapSet heapGet at *
      rw [getD_set_self _ _ _ _ (by simp), hgetf, hget1]
      simp
  | some st =>
    have hlen2 : (listAppendOp (h ++ [[]]) h.length st).length
        = h.length + 1 := by
      simp [listAppendOp, heapSet]
    have hget2p : heapGet (listAppendOp (h ++ [[]]) h.length st) pRef
        = heapGet h pRef := by
      unfold listAppendOp heapSet heapGet at *
      rw [getD_set_ne _ _ _ _ _ hne]
      exact hget1
    have hget2f : heapGet (listAppendOp (h ++ [[]]) h.length st) h.length
        = [st] := by
      unfold listAppendOp heapSet heapGet at *
      rw [getD_set_self _ _ _ _ (by simp), hgetf]
      simp
    constructor
    · show heapGet (listExtendOp (listAppendOp (h ++ [[]]) h.length st)
          h.length pRef) pRef = heapGet h pRef
      unfold listExtendOp heapSet heapGet at *
      rw [getD_set_ne _ _ _ _ _ hne]
      exact hget2p
    · show heapGet (listExtendOp (listAppendOp (h ++ [[]]) h.length st)
          h.length pRef) h.length = Option.toList (some st) ++ heapGet h pRef
      unfold listExtendOp heapSet heapGet at *
      rw [getD_set_self _ _ _ _ (by simp [listAppendOp, heapSet]), hget2f, hget2p]
      simp

/-- Witness for C10 on a concrete heap: one caller pipeline cell holding one
stage, date stage present; the caller cell is unchanged and the fresh cell
holds the date stage followed by the caller stage. -/
theorem C10_witness :
    heapGet (buildFinalPipeline [[Stage.other "x"]] 0
        (some (Stage.dateMatchGteLt 1 2))).2 0 = [Stage.other "x"]
    ∧ heapGet (buildFinalPipeline [[Stage.other "x"]] 0
        (some (Stage.dateMatchGteLt 1 2))).2
        (buildFinalPipeline [[Stage.other "x"]] 0
          (some (Stage.dateMatchGteLt 1 2))).1
      = [Stage.dateMatchGteLt 1 2, Stage.other "x"] :=
  ⟨(C10_caller_pipeline_unchanged [[Stage.other "x"]] 0
      (some (Stage.dateMatchGteLt 1 2)) (by decide)).1,
   (C10_caller_pipeline_unchanged [[Stage.other "x"]] 0
      (some (Stage.dateMatchGteLt 1 2)) (by decide)).2⟩

/-- Claim C5: for every run of the lifespan, with any server body (any event
trace and any outcome, a raised exception included), the connection is
opened before the body runs and closed after it on every exit path: the
full trace is exactly openConn, then the body trace, then closeConn, and
the body outcome is propagated. -/
theorem C5_lifespan_opens_then_closes {A : Type} (bodyTrace : List LifeEvent)
    (outcome : PyResult A) :
    (app_lifespan (bodyTrace, outcome)).1
      = [LifeEvent.openConn] ++ bodyTrace ++ [LifeEvent.closeConn]
    ∧ (app_lifespan (bodyTrace, outcome)).2 = outcome := by
  constructor
  · simp [app_lifespan, tryFinallyTrace]
  · rfl

/-- Claim C6: the structured-chat client configures the executor with a hard
iteration ceiling of 5; for every policy and tool, the number of tool-call
iterations of an invocation never exceeds that ceiling, and a policy that
never finishes (always decides to act) reaches the ceiling and gets the
bounded-failure stopped result rather than an infinite loop — the loop is a
total function of its fuel. -/
theorem C6_iteration_ceiling {A B : Type}
    (policy : List (A × B) → AgentDecision A) (runTool : A → B) :
    max_iterations = 5
    ∧ (agent_executor_invoke policy runTool).toolCallCount ≤ max_iterations
    ∧ ((∀ sp, ∃ a, policy sp = AgentDecision.act a) →
        (agent_executor_invoke policy runTool).hitLimit = true
        ∧ (agent_executor_invoke policy runTool).output
          = "Agent stopped due to iteration limit.") := by
  refine ⟨rfl, ?_, ?_⟩
  · have hle := runExecutorLoop_count_le policy runTool max_iterations []
    simpa [agent_executor_invoke] using hle
  · intro h
    exact runExecutorLoop_always_act policy runTool h max_iterations []

/-- Witness for C6: a policy that always calls a tool performs at most 5
iterations and ends in the stopped bounded-failure result. -/
theorem C6_witness :
    (agent_executor_invoke (fun _ : List (Nat × Nat) => AgentDecision.act 0)
        (fun n : Nat => n)).toolCallCount ≤ max_iterations
    ∧ (agent_executor_invoke (fun _ : List (Nat × Nat) => AgentDecision.act 0)
        (fun n : Nat => n)).hitLimit = true :=
  ⟨(C6_iteration_ceiling (fun _ : List (Nat × Nat) => AgentDecision.act 0)
      (fun n : Nat => n)).2.1,
   ((C6_iteration_ceiling (fun _ : List (Nat × Nat) => AgentDecision.act 0)
      (fun n : Nat => n)).2.2 (fun _ => ⟨0, rfl⟩)).1⟩

/-- Claim C7: for every exception raised by the agent invocation in the
structured-chat client, the outermost call catches it, prints the failure
message, and returns normally (PyResult.ok, never a re-raised exception) an
error object carrying the failure message. -/
theorem C7_exception_to_error_object {R : Type} (render : R → String)
    (e : String) :
    (clientMain (PyResult.exn e) render).returned
      = PyResult.ok (MainReturn.errorObj e)
    ∧ ("Error executing agent: " ++ e) ∈ (clientMain (PyResult.exn e) render).printed := by
  refine ⟨rfl, ?_⟩
  simp [clientMain]
